import Mathlib

/-!
Verification development for the wgsleng WGSL game runtime.

The definitions below are shallow embeddings of the JavaScript runtime
(`WGSLGameEngine` and the legacy `wgsl-game.js` loader): the preprocessor's
GameState layout calculator, the std430 layout rules of the WGSL compiler,
the host-block buffer offsets from `setupBuffers`/`update`, the OBJ parser's
vertex counting, the `@str` rewriter, the sound loader, the import inliner,
the key tables, the audio read-back state machine, and the camera list
extraction.  Theorems settle the spec's claims against these embeddings.
-/

namespace Wgsleng

/-- Round `n` up to a multiple of `align` (as `Math.ceil(n / align) * align`
in the runtime, and `roundUp` in the WGSL memory-layout rules). -/
def roundUp (align n : Nat) : Nat := ((n + align - 1) / align) * align

/-- The WGSL types the preprocessor's layout calculator recognizes in a
`GameState` struct: `u32`, `i32`, `f32`, `vec2f`, `vec3f`, `vec4f`, and
fixed-size arrays of these. -/
inductive WgslTy where
  | u32 : WgslTy
  | i32 : WgslTy
  | f32 : WgslTy
  | vec2f : WgslTy
  | vec3f : WgslTy
  | vec4f : WgslTy
  | arr (elem : WgslTy) (count : Nat) : WgslTy
deriving DecidableEq, Repr

/-- A field type is a valid GameState field when arrays are non-nested,
have one of the scalar/vector element types, and a positive count. -/
def validField : WgslTy → Prop
  | .arr e n => (match e with | .arr _ _ => False | _ => True) ∧ 0 < n
  | _ => True

instance : DecidablePred validField := by
  intro t
  cases t with
  | arr e n => cases e <;> exact inferInstanceAs (Decidable (_ ∧ _))
  | _ => exact inferInstanceAs (Decidable True)

/-- Element size and alignment the runtime's layout calculator uses for
array element types (`preprocessShader`: vec3f elements are padded to a
16-byte stride, everything else keeps its natural size). -/
def calcElemSizeAlign : WgslTy → Nat × Nat
  | .vec4f => (16, 16)
  | .vec3f => (16, 16)
  | .vec2f => (8, 8)
  | _ => (4, 4)

/-- Size contribution and alignment the runtime's layout calculator
assigns to one GameState field (`preprocessShader`): arrays contribute
`elementSize * count`, non-array vec3f contributes 12 with alignment 16,
scalars contribute 4. -/
def calcFieldSizeAlign : WgslTy → Nat × Nat
  | .arr e n => ((calcElemSizeAlign e).1 * n, (calcElemSizeAlign e).2)
  | .vec4f => (16, 16)
  | .vec3f => (12, 16)
  | .vec2f => (8, 8)
  | _ => (4, 4)

/-- One step of the calculator's field loop: add the field's size to the
running total and take the max of the alignments. -/
def calcStep (acc : Nat × Nat) (t : WgslTy) : Nat × Nat :=
  ((acc.1 + (calcFieldSizeAlign t).1), max acc.2 (calcFieldSizeAlign t).2)

/-- The calculator's raw (unrounded size, alignment) pair: fields are
summed with no inter-field padding, starting from size 0 and the default
scalar alignment 4. -/
def calcRaw (fs : List WgslTy) : Nat × Nat := fs.foldl calcStep (0, 4)

/-- Struct alignment the calculator reports (max of member alignments,
at least 4). -/
def calcStateAlign (fs : List WgslTy) : Nat := (calcRaw fs).2

/-- Final GameState size the calculator reports:
`Math.max(stateAlignment, Math.ceil(stateSize / stateAlignment) * stateAlignment)`. -/
def calcStateSize (fs : List WgslTy) : Nat :=
  max (calcStateAlign fs) (roundUp (calcStateAlign fs) (calcRaw fs).1)

/-- `metadata.stateSize`: the calculator's result when a GameState struct
is present, and the sentinel 16 when it is absent. -/
def gameStateSize : Option (List WgslTy) → Nat
  | some fs => calcStateSize fs
  | none => 16

/-- std430 alignment of a WGSL type (WGSL storage address space layout):
scalars 4, vec2f 8, vec3f and vec4f 16, arrays the element's alignment. -/
def alignOf : WgslTy → Nat
  | .u32 => 4
  | .i32 => 4
  | .f32 => 4
  | .vec2f => 8
  | .vec3f => 16
  | .vec4f => 16
  | .arr e _ => alignOf e

/-- std430 size of a WGSL type: scalars 4, vec2f 8, vec3f 12, vec4f 16,
and `array<E, N>` is `N` times the element stride
`roundUp(alignOf E, sizeOf E)`. -/
def sizeOf : WgslTy → Nat
  | .u32 => 4
  | .i32 => 4
  | .f32 => 4
  | .vec2f => 8
  | .vec3f => 12
  | .vec4f => 16
  | .arr e n => roundUp (alignOf e) (sizeOf e) * n

/-- std430 member offsets of a struct given the (alignment, size) pairs of
its members: each member starts at the running offset rounded up to the
member's alignment. -/
def structOffsetsFrom (cur : Nat) : List (Nat × Nat) → List Nat
  | [] => []
  | (a, s) :: rest => roundUp a cur :: structOffsetsFrom (roundUp a cur + s) rest

/-- The offset just past the last member of a struct under std430. -/
def structEndFrom (cur : Nat) : List (Nat × Nat) → Nat
  | [] => cur
  | (a, s) :: rest => structEndFrom (roundUp a cur + s) rest

/-- std430 alignment of a struct: the max of its member alignments. -/
def structAlignOf (fields : List (Nat × Nat)) : Nat :=
  fields.foldl (fun m p => max m p.1) 1

/-- std430 size of a struct: the offset just past the last member, rounded
up to the struct's alignment. -/
def structSizeOf (fields : List (Nat × Nat)) : Nat :=
  roundUp (structAlignOf fields) (structEndFrom 0 fields)

/-- The (alignment, size) pairs of a GameState struct's fields under
std430. -/
def std430Fields (fs : List WgslTy) : List (Nat × Nat) :=
  fs.map (fun t => (alignOf t, sizeOf t))

/-- std430 size of the GameState struct the preprocessor moves into the
generated header: what the WGSL compiler actually allocates for it. -/
def std430Size (fs : List WgslTy) : Nat := structSizeOf (std430Fields fs)

/-- std430 offsets of the GameState struct's own fields. -/
def std430Offsets (fs : List WgslTy) : List Nat := structOffsetsFrom 0 (std430Fields fs)

/-- Byte offsets at which the host writes the host-block regions
(`setupBuffers` bufferOffsets plus the byte positions used by `update`
when writing the volatile prefix): buttons at 0, time/delta/width/height
at 48/52/56/60, mouse at 64, state at 80, audio right after state, then
osc, then keys. -/
structure HostOffsets where
  buttons : Nat
  time : Nat
  delta_time : Nat
  screen_width : Nat
  screen_height : Nat
  mouse : Nat
  state : Nat
  audio : Nat
  osc : Nat
  keys : Nat
deriving DecidableEq, Repr

/-- The offsets `setupBuffers` computes, given the preprocessor's
`stateSize` and the number of sounds. -/
def hostOffsets (stateSize audioCount : Nat) : HostOffsets :=
  let buttonSize := 12 * 4
  let floatDataSize := 8 * 4
  { buttons := 0
    time := buttonSize
    delta_time := buttonSize + 4
    screen_width := buttonSize + 8
    screen_height := buttonSize + 12
    mouse := buttonSize + 16
    state := buttonSize + floatDataSize
    audio := buttonSize + floatDataSize + stateSize
    osc := buttonSize + floatDataSize + stateSize + audioCount * 4
    keys := buttonSize + floatDataSize + stateSize + audioCount * 4 + 64 * 4 }

/-- Total host-block buffer size `setupBuffers` allocates: prefix + state
+ audio + osc (64 floats) + keys (194 u32s), rounded up to a multiple
of 16. -/
def totalHostSize (stateSize audioCount : Nat) : Nat :=
  roundUp 16 ((12 * 4) + (8 * 4) + stateSize + audioCount * 4 + 64 * 4 + 194 * 4)

/-- The (alignment, size) pairs of the emitted `GameEngineHost` struct's
members under std430, when a GameState struct is present: buttons
`array<i32,12>`, four f32 scalars, the vec4f mouse, the GameState, the
audio counter array (only when there is at least one sound), the osc
array `array<f32,64>`, and the keys array `array<u32,194>`. -/
def hostStructFields (fs : List WgslTy) (audioCount : Nat) : List (Nat × Nat) :=
  [(4, 48), (4, 4), (4, 4), (4, 4), (4, 4), (16, 16),
   (structAlignOf (std430Fields fs), std430Size fs)]
  ++ (if audioCount > 0 then [(4, audioCount * 4)] else [])
  ++ [(4, 64 * 4), (4, 194 * 4)]

/-- The GameState fields of the Bob demo:
`{ player_pos: vec2f, player_vel: vec2f, at_edge: u32 }`. -/
def bobFields : List WgslTy := [.vec2f, .vec2f, .u32]

theorem dvd_roundUp (a n : Nat) : a ∣ roundUp a n :=
  Dvd.dvd.mul_left (dvd_refl a) _

theorem le_roundUp {a : Nat} (n : Nat) (h : 0 < a) : n ≤ roundUp a n := by
  have h2 : (n + a - 1) < (n + a - 1) / a * a + a := Nat.lt_div_mul_add h
  unfold roundUp
  generalize (n + a - 1) / a * a = t at h2 ⊢
  omega

theorem roundUp_eq_self {a n : Nat} (h : 0 < a) (hd : a ∣ n) : roundUp a n = n := by
  obtain ⟨k, rfl⟩ := hd
  unfold roundUp
  have he : a * k + a - 1 = a - 1 + k * a := by
    have : a * k = k * a := Nat.mul_comm a k
    omega
  rw [he, Nat.add_mul_div_right _ _ h, Nat.div_eq_of_lt (by omega), Nat.zero_add,
    Nat.mul_comm]

theorem align_le_roundUp {a n : Nat} (ha : 0 < a) (hn : 0 < n) : a ≤ roundUp a n := by
  have h1 : 1 ≤ (n + a - 1) / a := (Nat.one_le_div_iff ha).2 (by omega)
  calc a = 1 * a := (Nat.one_mul a).symm
    _ ≤ (n + a - 1) / a * a := Nat.mul_le_mul_right a h1

theorem calcStep_snd_le (acc : Nat × Nat) (fs : List WgslTy) :
    acc.2 ≤ (fs.foldl calcStep acc).2 := by
  induction fs generalizing acc with
  | nil => exact Nat.le_refl _
  | cons t rest ih =>
    exact Nat.le_trans (Nat.le_max_left _ _) (ih (calcStep acc t))

theorem four_le_calcStateAlign (fs : List WgslTy) : 4 ≤ calcStateAlign fs :=
  calcStep_snd_le (0, 4) fs

theorem calcStateAlign_pos (fs : List WgslTy) : 0 < calcStateAlign fs :=
  Nat.lt_of_lt_of_le (by omega) (four_le_calcStateAlign fs)

/-- C6 (counterexample): the claim says the computed `game_state_size` is
at least 16 for every input shader, but for `GameState { x : f32 }` the
calculator returns 4. -/
theorem C6_counterexample :
    gameStateSize (some [WgslTy.f32]) = 4 ∧
    ¬ (16 ≤ gameStateSize (some [WgslTy.f32])) := by decide

/-- C6 (amended): when no GameState struct is present the computed size is
exactly 16; when one is present the size is at least the struct alignment
(hence at least 4) and a multiple of the struct alignment, but it can be
below 16. -/
theorem C6_amended :
    gameStateSize none = 16 ∧
    ∀ fs : List WgslTy,
      4 ≤ gameStateSize (some fs) ∧
      calcStateAlign fs ≤ gameStateSize (some fs) ∧
      calcStateAlign fs ∣ gameStateSize (some fs) := by
  refine ⟨rfl, fun fs => ?_⟩
  have h4 := four_le_calcStateAlign fs
  have hle : calcStateAlign fs ≤ calcStateSize fs := Nat.le_max_left _ _
  refine ⟨Nat.le_trans h4 hle, hle, ?_⟩
  have hd : calcStateAlign fs ∣ roundUp (calcStateAlign fs) (calcRaw fs).1 :=
    dvd_roundUp _ _
  rcases max_choice (calcStateAlign fs) (roundUp (calcStateAlign fs) (calcRaw fs).1)
    with hm | hm
  · show calcStateAlign fs ∣ calcStateSize fs
    rw [calcStateSize, hm]
  · show calcStateAlign fs ∣ calcStateSize fs
    rw [calcStateSize, hm]; exact hd

/-- C2 (counterexample): for the Bob demo GameState (two vec2f and one
u32, one sound) the allocated host-block buffer is not 112 bytes: the
allocation also covers the 256-byte OSC region and the 776-byte keys
region, so it is 1152 bytes. -/
theorem C2_counterexample :
    totalHostSize (gameStateSize (some bobFields)) 1 = 1152 ∧
    totalHostSize (gameStateSize (some bobFields)) 1 ≠ 112 := by decide

/-- C2 (amended): for the Bob demo the state size is 24 (20 rounded up to
alignment 8), the audio counter sits at offset 104 and the OSC region at
offset 108 = 80 + 24 + 4, and the allocated buffer is
80 + 24 + 4 + 256 + 776 = 1140 rounded up to 1152 bytes. -/
theorem C2_amended :
    gameStateSize (some bobFields) = 24 ∧
    (hostOffsets 24 1).state = 80 ∧
    (hostOffsets 24 1).audio = 104 ∧
    (hostOffsets 24 1).osc = 108 ∧
    totalHostSize 24 1 = 1152 := by decide

/-- Naive packing check: laying the GameState fields out consecutively
(exactly as the runtime's calculator sums them), every field's running
offset is already a multiple of that field's std430 alignment, so the
WGSL compiler inserts no inter-field padding. -/
def noPad : Nat → List WgslTy → Bool
  | _, [] => true
  | cur, t :: rest => (cur % alignOf t == 0) && noPad (cur + sizeOf t) rest

/-- The field offsets of consecutive (padding-free) packing. -/
def naiveOffsetsFrom : Nat → List WgslTy → List Nat
  | _, [] => []
  | cur, t :: rest => cur :: naiveOffsetsFrom (cur + sizeOf t) rest

theorem alignOf_pos (t : WgslTy) : 0 < alignOf t := by
  induction t <;> simp_all [alignOf]

theorem calcFieldSizeAlign_eq {t : WgslTy} (h : validField t) :
    calcFieldSizeAlign t = (sizeOf t, alignOf t) := by
  cases t with
  | arr e n =>
    cases e <;> simp_all [validField, calcFieldSizeAlign, calcElemSizeAlign,
      sizeOf, alignOf, roundUp]
  | _ => rfl

/-- The std430 alignment of any valid GameState field is 4, 8 or 16. -/
def isAlignVal (a : Nat) : Prop := a = 4 ∨ a = 8 ∨ a = 16

theorem alignOf_isAlignVal {t : WgslTy} (h : validField t) : isAlignVal (alignOf t) := by
  cases t with
  | arr e n => cases e <;> simp_all [validField, alignOf, isAlignVal]
  | _ => simp [alignOf, isAlignVal]

theorem four_le_sizeOf {t : WgslTy} (h : validField t) : 4 ≤ sizeOf t := by
  cases t with
  | arr e n =>
    obtain ⟨he, hn⟩ := h
    have h4 : 4 ≤ sizeOf e := by cases e <;> simp_all [sizeOf]
    have hs : sizeOf e ≤ roundUp (alignOf e) (sizeOf e) := le_roundUp _ (alignOf_pos e)
    calc 4 ≤ roundUp (alignOf e) (sizeOf e) := Nat.le_trans h4 hs
      _ = roundUp (alignOf e) (sizeOf e) * 1 := (Nat.mul_one _).symm
      _ ≤ roundUp (alignOf e) (sizeOf e) * n := Nat.mul_le_mul_left _ hn
  | _ => simp [sizeOf]

theorem max_isAlignVal {a b : Nat} (ha : isAlignVal a) (hb : isAlignVal b) :
    isAlignVal (max a b) := by
  rcases max_choice a b with h | h <;> rw [h] <;> assumption

/-- Under padding-free packing, the std430 offsets of the GameState fields
are the naive running offsets, and the end of the struct is the plain sum
of the field sizes. -/
theorem structLayout_of_noPad :
    ∀ (fs : List WgslTy) (cur : Nat), noPad cur fs = true →
      structOffsetsFrom cur (std430Fields fs) = naiveOffsetsFrom cur fs ∧
      structEndFrom cur (std430Fields fs) = cur + (fs.map sizeOf).sum := by
  intro fs
  induction fs with
  | nil => intro cur _; simp [std430Fields, structOffsetsFrom, structEndFrom, naiveOffsetsFrom]
  | cons t rest ih =>
    intro cur h
    rw [noPad, Bool.and_eq_true, beq_iff_eq] at h
    obtain ⟨h1, h2⟩ := h
    have hru : roundUp (alignOf t) cur = cur :=
      roundUp_eq_self (alignOf_pos t) (Nat.dvd_of_mod_eq_zero h1)
    obtain ⟨ho, he⟩ := ih (cur + sizeOf t) h2
    refine ⟨?_, ?_⟩
    · simp [std430Fields, structOffsetsFrom, naiveOffsetsFrom, hru]
      simpa [std430Fields] using ho
    · simp [std430Fields, structEndFrom, hru]
      rw [show (fun t => (alignOf t, sizeOf t)) = fun t => (alignOf t, sizeOf t) from rfl]
      have := he
      simp [std430Fields] at this
      omega

/-- The calculator's fold, on valid fields, computes the plain sum of the
std430 sizes and the running max of the std430 alignments. -/
theorem foldl_calcStep_eq :
    ∀ (fs : List WgslTy), (∀ t ∈ fs, validField t) → ∀ acc : Nat × Nat,
      fs.foldl calcStep acc =
        (acc.1 + (fs.map sizeOf).sum, fs.foldl (fun m t => max m (alignOf t)) acc.2) := by
  intro fs
  induction fs with
  | nil => intro _ acc; simp
  | cons t rest ih =>
    intro hval acc
    have hv : validField t := hval t (by simp)
    have hrest : ∀ u ∈ rest, validField u := fun u hu => hval u (by simp [hu])
    rw [List.foldl_cons, ih hrest, List.map_cons, List.sum_cons]
    rw [show calcStep acc t = (acc.1 + sizeOf t, max acc.2 (alignOf t)) by
      simp [calcStep, calcFieldSizeAlign_eq hv]]
    simp [List.foldl_cons]
    omega

theorem foldl_max_align_mem :
    ∀ (fs : List WgslTy), (∀ t ∈ fs, validField t) → ∀ a : Nat, isAlignVal a →
      isAlignVal (fs.foldl (fun m t => max m (alignOf t)) a) := by
  intro fs
  induction fs with
  | nil => intro _ a ha; simpa using ha
  | cons t rest ih =>
    intro hval a ha
    have hv : validField t := hval t (by simp)
    have hrest : ∀ u ∈ rest, validField u := fun u hu => hval u (by simp [hu])
    exact ih hrest _ (max_isAlignVal ha (alignOf_isAlignVal hv))

theorem calcStateAlign_eq_foldl {fs : List WgslTy} (hval : ∀ t ∈ fs, validField t) :
    calcStateAlign fs = fs.foldl (fun m t => max m (alignOf t)) 4 := by
  rw [calcStateAlign, calcRaw, foldl_calcStep_eq fs hval (0, 4)]

theorem calcRaw_fst_eq {fs : List WgslTy} (hval : ∀ t ∈ fs, validField t) :
    (calcRaw fs).1 = (fs.map sizeOf).sum := by
  rw [calcRaw, foldl_calcStep_eq fs hval (0, 4)]
  simp

theorem structAlignOf_eq_foldl (fs : List WgslTy) :
    structAlignOf (std430Fields fs) = fs.foldl (fun m t => max m (alignOf t)) 1 := by
  rw [structAlignOf, std430Fields, List.foldl_map]

/-- For a nonempty valid field list, the struct alignment the WGSL
compiler uses equals the alignment the calculator reports. -/
theorem structAlign_eq_calcAlign {fs : List WgslTy}
    (hval : ∀ t ∈ fs, validField t) (hne : fs ≠ []) :
    structAlignOf (std430Fields fs) = calcStateAlign fs := by
  cases fs with
  | nil => exact absurd rfl hne
  | cons t rest =>
    have hv : validField t := hval t (by simp)
    have h4 : 4 ≤ alignOf t := by
      rcases alignOf_isAlignVal hv with h | h | h <;> omega
    rw [structAlignOf_eq_foldl, calcStateAlign_eq_foldl hval]
    rw [List.foldl_cons, List.foldl_cons]
    congr 1
    omega

theorem calcStateAlign_isAlignVal {fs : List WgslTy}
    (hval : ∀ t ∈ fs, validField t) : isAlignVal (calcStateAlign fs) := by
  rw [calcStateAlign_eq_foldl hval]
  exact foldl_max_align_mem fs hval 4 (Or.inl rfl)

theorem four_le_sum_sizes {fs : List WgslTy}
    (hval : ∀ t ∈ fs, validField t) (hne : fs ≠ []) : 4 ≤ (fs.map sizeOf).sum := by
  cases fs with
  | nil => exact absurd rfl hne
  | cons t rest =>
    have := four_le_sizeOf (hval t (by simp))
    simp [List.sum_cons]
    omega

/-- For nonempty, valid, padding-free GameState fields the calculator's
size equals the std430 struct size. -/
theorem calcSize_eq_std430Size {fs : List WgslTy}
    (hval : ∀ t ∈ fs, validField t) (hne : fs ≠ []) (hnp : noPad 0 fs = true) :
    calcStateSize fs = std430Size fs := by
  have hend := (structLayout_of_noPad fs 0 hnp).2
  have hA := structAlign_eq_calcAlign hval hne
  have hsum := calcRaw_fst_eq hval
  have hpos := calcStateAlign_pos fs
  have h4 := four_le_sum_sizes hval hne
  rw [std430Size, structSizeOf, hend, hA, calcStateSize, hsum]
  rw [Nat.zero_add]
  exact Nat.max_eq_right (align_le_roundUp hpos (by omega))

/-- Padding-free check at the level of (alignment, size) member pairs. -/
def noPadPairs : Nat → List (Nat × Nat) → Bool
  | _, [] => true
  | cur, (a, s) :: rest => (cur % a == 0) && noPadPairs (cur + s) rest

/-- Member offsets of consecutive (padding-free) packing of member pairs. -/
def naivePairOffsetsFrom : Nat → List (Nat × Nat) → List Nat
  | _, [] => []
  | cur, (_, s) :: rest => cur :: naivePairOffsetsFrom (cur + s) rest

theorem structOffsets_of_noPadPairs :
    ∀ (fields : List (Nat × Nat)) (cur : Nat), (∀ p ∈ fields, 0 < p.1) →
      noPadPairs cur fields = true →
      structOffsetsFrom cur fields = naivePairOffsetsFrom cur fields := by
  intro fields
  induction fields with
  | nil => intro cur _ _; rfl
  | cons p rest ih =>
    intro cur hpos h
    obtain ⟨a, s⟩ := p
    rw [noPadPairs, Bool.and_eq_true, beq_iff_eq] at h
    obtain ⟨h1, h2⟩ := h
    have hru : roundUp a cur = cur :=
      roundUp_eq_self (hpos (a, s) (by simp)) (Nat.dvd_of_mod_eq_zero h1)
    rw [structOffsetsFrom, naivePairOffsetsFrom, hru]
    rw [ih (cur + s) (fun q hq => hpos q (by simp [hq])) h2]

/-- C1 (counterexample): for `GameState { x: f32, v: vec4f, y: f32 }` the
calculator reports 32 bytes but the std430 size of the struct is 48 (the
vec4f is padded to offset 16), so the host writes the audio region 16
bytes before the offset the WGSL compiler assigns to the `audio` member. -/
theorem C1_counterexample :
    calcStateSize [WgslTy.f32, WgslTy.vec4f, WgslTy.f32] ≠
        std430Size [WgslTy.f32, WgslTy.vec4f, WgslTy.f32] ∧
    (hostOffsets (calcStateSize [WgslTy.f32, WgslTy.vec4f, WgslTy.f32]) 1).audio ≠
      (structOffsetsFrom 0
        (hostStructFields [WgslTy.f32, WgslTy.vec4f, WgslTy.f32] 1)).getD 7 0 := by
  decide

/-- C1 (amended): for every valid, nonempty GameState whose consecutive
packing already satisfies each field's std430 alignment (no inter-field
padding required — the calculator sums raw sizes and cannot account for
such padding), the calculator's size equals the std430 struct size, the
GameState field offsets are the consecutive offsets, and the offsets at
which the host writes every host-block region (buttons, time, delta_time,
screen_width, screen_height, mouse, state, audio when sounds exist, osc,
keys) equal the std430 offsets of the corresponding members of the
emitted `GameEngineHost` struct. -/
theorem C1_amended (fs : List WgslTy) (N : Nat)
    (hval : ∀ t ∈ fs, validField t) (hne : fs ≠ []) (hnp : noPad 0 fs = true) :
    calcStateSize fs = std430Size fs ∧
    std430Offsets fs = naiveOffsetsFrom 0 fs ∧
    structOffsetsFrom 0 (hostStructFields fs N) =
      [(hostOffsets (calcStateSize fs) N).buttons,
       (hostOffsets (calcStateSize fs) N).time,
       (hostOffsets (calcStateSize fs) N).delta_time,
       (hostOffsets (calcStateSize fs) N).screen_width,
       (hostOffsets (calcStateSize fs) N).screen_height,
       (hostOffsets (calcStateSize fs) N).mouse,
       (hostOffsets (calcStateSize fs) N).state] ++
      (if 0 < N then [(hostOffsets (calcStateSize fs) N).audio] else []) ++
      [(hostOffsets (calcStateSize fs) N).osc,
       (hostOffsets (calcStateSize fs) N).keys] := by
  have hS := calcSize_eq_std430Size hval hne hnp
  refine ⟨hS, (structLayout_of_noPad fs 0 hnp).1, ?_⟩
  have hAval : isAlignVal (structAlignOf (std430Fields fs)) := by
    rw [structAlign_eq_calcAlign hval hne]
    exact calcStateAlign_isAlignVal hval
  have hApos : 0 < structAlignOf (std430Fields fs) := by
    rcases hAval with h | h | h <;> omega
  have hA80 : 80 % structAlignOf (std430Fields fs) = 0 := by
    rcases hAval with h | h | h <;> rw [h]
  have h4S : 4 ∣ std430Size fs := by
    have h4A : 4 ∣ structAlignOf (std430Fields fs) := by
      rcases hAval with h | h | h <;> omega
    exact Dvd.dvd.trans h4A (dvd_roundUp _ _)
  have hpos : ∀ p ∈ hostStructFields fs N, 0 < p.1 := by
    intro p hp
    rw [hostStructFields] at hp
    rcases List.mem_append.1 hp with hp | hp
    · rcases List.mem_append.1 hp with hp | hp
      · simp only [List.mem_cons, List.not_mem_nil, or_false] at hp
        rcases hp with rfl | rfl | rfl | rfl | rfl | rfl | rfl
        · decide
        · decide
        · decide
        · decide
        · decide
        · decide
        · exact hApos
      · by_cases hN : 0 < N
        · rw [if_pos hN] at hp
          simp only [List.mem_singleton] at hp
          subst hp
          simp
        · rw [if_neg hN] at hp
          simp at hp
    · simp only [List.mem_cons, List.not_mem_nil, or_false] at hp
      rcases hp with rfl | rfl <;> decide
  have hnpp : noPadPairs 0 (hostStructFields fs N) = true := by
    rw [hostStructFields]
    by_cases hN : 0 < N
    · simp only [hN, if_pos, List.cons_append, List.nil_append, noPadPairs,
        Bool.and_eq_true, beq_iff_eq]
      norm_num
      repeat' apply And.intro
      all_goals first
        | rfl
        | exact hA80
        | omega
    · simp only [hN, if_neg, List.cons_append, List.nil_append, noPadPairs,
        Bool.and_eq_true, beq_iff_eq]
      norm_num
      repeat' apply And.intro
      all_goals first
        | rfl
        | exact hA80
        | omega
  rw [structOffsets_of_noPadPairs _ 0 hpos hnpp]
  rw [hostStructFields, hS]
  by_cases hN : 0 < N
  · simp only [hN, if_pos, List.cons_append, List.nil_append, naivePairOffsetsFrom,
      hostOffsets, List.append_assoc, List.cons.injEq, and_true, true_and]
    try norm_num
    try omega
  · simp only [hN, if_neg, List.cons_append, List.nil_append, naivePairOffsetsFrom,
      hostOffsets, List.append_assoc, List.cons.injEq, and_true, true_and]
    try norm_num
    try omega

/-- Witness for C1 (amended), at the Bob demo GameState with one sound. -/
theorem C1_amended_witness :
    (∀ t ∈ bobFields, validField t) ∧ bobFields ≠ [] ∧ noPad 0 bobFields = true ∧
    calcStateSize bobFields = std430Size bobFields :=
  ⟨by decide, by decide, by decide,
    (C1_amended bobFields 1 (by decide) (by decide) (by decide)).1⟩

/-!
The `@str` rewriter (`preprocessShader`): the matched string content is
unescaped by five successive global replacements (`\n`, `\r`, `\t`, `\"`,
`\\`, in that order), turned into character codes, and zero-padded while
shorter than 128.
-/

/-- One global regex replacement of the two-character pattern
`backslash t` by the character `r`, scanning left to right without
overlap (the semantics of `String.replace(/\\t/g, r)` for a fixed
escape letter `t`). -/
def replacePair (t r : Char) : List Char → List Char
  | [] => []
  | '\\' :: c2 :: rest =>
    if c2 = t then r :: replacePair t r rest
    else '\\' :: replacePair t r (c2 :: rest)
  | c :: cs => c :: replacePair t r cs

/-- The five escape replacements of the `@str` rewriter, applied in the
order the runtime applies them. -/
def unescape (s : List Char) : List Char :=
  replacePair '\\' '\\'
    (replacePair '"' '"'
      (replacePair 't' '\t'
        (replacePair 'r' '\r'
          (replacePair 'n' '\n' s))))

/-- `MAX_STRING_LENGTH` of the `@str` rewriter. -/
def MAX_STRING_LENGTH : Nat := 128

/-- The element list of the emitted `array<u32, 128>(...)` literal: the
character codes of the unescaped string, with zeros pushed while the list
is shorter than 128.  Nothing is ever removed. -/
def strLiteralElems (s : List Char) : List Nat :=
  let charCodes := (unescape s).map Char.toNat
  charCodes ++ List.replicate (MAX_STRING_LENGTH - charCodes.length) 0

set_option maxRecDepth 4000 in
/-- C4 (counterexample): for a 129-character string the emitted literal
has 129 elements, not 128 — the rewriter only pads, it never truncates. -/
theorem C4_counterexample :
    (strLiteralElems (List.replicate 129 'a')).length = 129 ∧
    (strLiteralElems (List.replicate 129 'a')).length ≠ 128 := by decide

/-- C4 (amended): every `@str("...")` is rewritten to an
`array<u32, 128>` literal whose element list is the unescaped string's
character codes zero-padded at the end; for at most 128 characters the
literal has exactly 128 elements, but a longer string keeps all its
character codes (one element per character, no truncation), so the
element count is `max 128 length`. -/
theorem C4_amended (s : List Char) :
    (strLiteralElems s).length = max 128 (unescape s).length ∧
    (∀ i, i < (unescape s).length →
      (strLiteralElems s).getD i 1 = Char.toNat ((unescape s).getD i 'a')) ∧
    (∀ i, (unescape s).length ≤ i → i < 128 → (strLiteralElems s).getD i 1 = 0) := by
  refine ⟨?_, ?_, ?_⟩
  · simp [strLiteralElems, MAX_STRING_LENGTH]
    omega
  · intro i hi
    have hi' : i < ((unescape s).map Char.toNat).length := by simpa using hi
    simp only [strLiteralElems, MAX_STRING_LENGTH]
    rw [List.getD_eq_getElem?_getD, List.getElem?_append_left hi', List.getElem?_map,
      List.getElem?_eq_getElem hi, List.getD_eq_getElem?_getD,
      List.getElem?_eq_getElem hi]
    simp
  · intro i h1 h2
    have hlen : ((unescape s).map Char.toNat).length = (unescape s).length := by simp
    simp only [strLiteralElems, MAX_STRING_LENGTH]
    rw [List.getD_eq_getElem?_getD,
      List.getElem?_append_right (by omega : ((unescape s).map Char.toNat).length ≤ i)]
    rw [List.getElem?_replicate]
    simp only [List.length_map]
    rw [if_pos (by omega : i - (unescape s).length < 128 - (unescape s).length)]
    rfl

/-- Witness for C4 (amended), at the string `hi\n` (four source
characters, three after unescaping): element 2 is the newline code 10 and
element 5 is padding 0. -/
theorem C4_amended_witness :
    (strLiteralElems ['h', 'i', '\\', 'n']).getD 2 1 = 10 ∧
    (strLiteralElems ['h', 'i', '\\', 'n']).getD 5 1 = 0 := by
  have h := C4_amended ['h', 'i', '\\', 'n']
  refine ⟨(h.2.1 2 (by decide)).trans (by decide), h.2.2 5 (by decide) (by decide)⟩

/-!
Sound loading (`loadSounds` / `playSound`): each sound file is read
through the resolver inside a try/catch; on failure the engine logs a
warning and stores `null`, and `playSound` silently returns when the
slot is `null`.
-/

/-- `loadSounds`: map the resolver over the sound files, storing `none`
for a file whose read fails (the catch branch pushes `null`). -/
def loadSounds (readFile : String → Except String (List Nat))
    (soundFiles : List String) : List (Option (List Nat)) :=
  soundFiles.map (fun filename =>
    match readFile filename with
    | .ok data => some data
    | .error _ => none)

/-- The sound-loading stage of `loadGame` as a fallible computation: the
try/catch inside `loadSounds` means no resolver error ever escapes, so
the stage always succeeds. -/
def loadSoundsResult (readFile : String → Except String (List Nat))
    (soundFiles : List String) : Except String (List (Option (List Nat))) :=
  Except.ok (loadSounds readFile soundFiles)

theorem getD_map_of_lt {α β : Type} (f : α → β) (l : List α) (i : Nat)
    (h : i < l.length) (d : β) (d' : α) :
    (l.map f).getD i d = f (l.getD i d') := by
  rw [List.getD_eq_getElem?_getD, List.getElem?_map, List.getElem?_eq_getElem h,
    List.getD_eq_getElem?_getD, List.getElem?_eq_getElem h]
  simp

/-- `playSound`: returns the buffer it starts, or `none` (a no-op) when
there is no audio context or the indexed sound slot is `null`. -/
def playSound (hasAudioContext : Bool) (sounds : List (Option (List Nat)))
    (index : Nat) : Option (List Nat) :=
  if hasAudioContext = false then none
  else match sounds.getD index none with
    | none => none
    | some b => some b

/-- C5 (counterexample): with a resolver that fails on `bump.ogg`, the
sound-loading stage still succeeds (the shader starts), storing a `null`
slot; playing that sound is a silent no-op.  The failure is not fatal. -/
theorem C5_counterexample :
    loadSoundsResult (fun _ => Except.error "404 not found") ["bump.ogg"] =
      Except.ok [none] ∧
    playSound true (loadSounds (fun _ => Except.error "404 not found") ["bump.ogg"]) 0 =
      none := by
  constructor <;> rfl

/-- C5 (amended): a failure to load a sound asset is not fatal: the load
stage always succeeds with one slot per requested sound, a failed file's
slot is `none`, and `playSound` on such a slot is a no-op. -/
theorem C5_amended (readFile : String → Except String (List Nat))
    (soundFiles : List String) :
    (loadSoundsResult readFile soundFiles).isOk = true ∧
    (loadSounds readFile soundFiles).length = soundFiles.length ∧
    ∀ i, i < soundFiles.length → (readFile (soundFiles.getD i "")).isOk = false →
      (loadSounds readFile soundFiles).getD i (some []) = none ∧
      ∀ hasCtx, playSound hasCtx (loadSounds readFile soundFiles) i = none := by
  refine ⟨rfl, by simp [loadSounds], ?_⟩
  intro i hi hfail
  have hslot : ∀ d, (loadSounds readFile soundFiles).getD i d = none := by
    intro d
    rw [loadSounds, getD_map_of_lt _ _ i hi d ""]
    rcases hrf : readFile (soundFiles.getD i "") with e | v
    · rfl
    · rw [hrf] at hfail
      simp [Except.isOk, Except.toBool] at hfail
  refine ⟨hslot _, fun hasCtx => ?_⟩
  cases hasCtx
  · rfl
  · rw [playSound, hslot none]
    rfl

/-- Witness for C5 (amended): concrete failing resolver and the sound
list of the Bob demo. -/
theorem C5_amended_witness :
    0 < (["bump.ogg"] : List String).length ∧
    (loadSoundsResult (fun _ => Except.error "missing") ["bump.ogg"]).isOk = true ∧
    (loadSounds (fun _ => Except.error "missing") ["bump.ogg"]).getD 0 (some []) = none := by
  have h := C5_amended (fun _ => Except.error "missing") ["bump.ogg"]
  exact ⟨by decide, h.1, (h.2.2 0 (by decide) (by rfl)).1⟩

/-!
OBJ parsing and the per-frame draw call.  `parseOBJ` splits the text into
lines on newlines, skips blank and comment lines, tokenizes each trimmed
line on whitespace runs, collects `v` / `vn` coordinate token triples
and, for each `f` line, the first three face-vertex indices; the expanded
vertex list has one entry per collected index.  `loadModels` stores each
model's vertex count into the single `modelVertexCount` slot (so the last
model wins), and `render` draws `modelVertexCount` vertices when positive,
else 3.  Text is modelled as character lists so the scanning semantics of
the JavaScript string operations can be spelled out exactly.
-/

/-- JavaScript `\s` on the characters the runtime feeds it: space, tab,
carriage return, newline. -/
def isWsp (c : Char) : Bool :=
  c.toNat = 32 || c.toNat = 9 || c.toNat = 13 || c.toNat = 10

/-- Split a character list at every character satisfying `p`
(single-separator split; empty pieces are kept, as in JavaScript). -/
def splitByAux (p : Char → Bool) : List Char → List Char → List (List Char)
  | [], acc => [acc.reverse]
  | c :: cs, acc =>
    if p c then acc.reverse :: splitByAux p cs []
    else splitByAux p cs (c :: acc)

def splitBy (p : Char → Bool) (l : List Char) : List (List Char) :=
  splitByAux p l []

/-- `text.split("\n")`. -/
def splitLines (text : List Char) : List (List Char) :=
  splitBy (fun c => c.toNat = 10) text

/-- `line.trim()`. -/
def trimChars (l : List Char) : List Char :=
  ((l.dropWhile isWsp).reverse.dropWhile isWsp).reverse

/-- `trimmed.split(/\s+/)` on a trimmed line: split on whitespace runs,
dropping empty pieces. -/
def objTokens (trimmed : List Char) : List (List Char) :=
  (splitBy isWsp trimmed).filter (fun t => t ≠ [])

/-- Decimal digit-string parsing standing in for `parseInt` (an optional
sign followed by digits; the runtime never inspects non-numeric index
tokens in well-formed OBJ files, and no claim depends on the value). -/
def parseDigits : List Char → Option Nat
  | [] => none
  | l => l.foldl (fun acc c =>
      match acc with
      | none => none
      | some n => if c.toNat ≥ 48 ∧ c.toNat ≤ 57 then some (n * 10 + (c.toNat - 48)) else none)
      (some 0)

def parseIntChars (l : List Char) : Option Int :=
  match l with
  | '-' :: rest => (parseDigits rest).map (fun n => -(n : Int))
  | _ => (parseDigits l).map (fun n => (n : Int))

/-- The face-vertex index of one `a/b/c` token: the part before the first
slash, read as an integer, minus one (OBJ indices are 1-based); `none`
models the NaN of a non-numeric token. -/
def parseIndexTok (tok : List Char) : Option Int :=
  (parseIntChars ((splitBy (fun c => c.toNat = 47) tok).headD [])).map (fun i => i - 1)

/-- The collected raw data of an OBJ parse: position and normal
coordinate token triples and the flattened face-vertex indices. -/
structure ObjScan where
  positions : List (List (List Char))
  normals : List (List (List Char))
  indices : List (Option Int)
deriving DecidableEq, Repr

/-- One line of the `parseOBJ` loop. -/
def objScanLine (acc : ObjScan) (line : List Char) : ObjScan :=
  let trimmed := trimChars line
  if trimmed = [] ∨ trimmed.headD ' ' = '#' then acc
  else
    match objTokens trimmed with
    | [] => acc
    | p0 :: rest =>
      if p0 = ['v'] ∧ rest.length + 1 ≥ 4 then
        { acc with positions := acc.positions ++ [rest.take 3] }
      else if p0 = ['v', 'n'] ∧ rest.length + 1 ≥ 4 then
        { acc with normals := acc.normals ++ [rest.take 3] }
      else if p0 = ['f'] ∧ rest.length + 1 ≥ 4 then
        { acc with indices := acc.indices ++ (rest.take 3).map parseIndexTok }
      else acc

/-- `parseOBJ` over the split lines of the file. -/
def parseOBJScan (objText : List Char) : ObjScan :=
  (splitLines objText).foldl objScanLine ⟨[], [], []⟩

/-- `vertexCount` of a parsed model: the expansion loop pushes one
position per collected face-vertex index, so the expanded vertex list has
exactly one entry per index. -/
def parseOBJvertexCount (objText : List Char) : Nat :=
  (parseOBJScan objText).indices.length

/-- `loadModels`: `modelVertexCount` starts at 0 and is overwritten by
each loaded model in order, so it ends as the last model's count. -/
def loadModelsVertexCount (objTexts : List (List Char)) : Nat :=
  objTexts.foldl (fun _ t => parseOBJvertexCount t) 0

/-- `render`: `modelVertexCount > 0 ? modelVertexCount : 3`. -/
def renderVertexCount (modelVertexCount : Nat) : Nat :=
  if modelVertexCount > 0 then modelVertexCount else 3

/-- The vertex count of the one draw call of a frame, as a function of
the manifest's model list contents. -/
def drawnVertexCount (objTexts : List (List Char)) : Nat :=
  renderVertexCount (loadModelsVertexCount objTexts)

/-- A one-triangle OBJ model (3 vertices after face expansion). -/
def objA : List Char := "v 0 0 0\nv 1 0 0\nv 0 1 0\nf 1 2 3".toList

/-- A two-triangle OBJ model (6 vertices after face expansion). -/
def objB : List Char := "v 0 0 0\nv 1 0 0\nv 0 1 0\nf 1 2 3\nf 1 3 2".toList

/-- C3 (counterexample): with two models in the manifest, the draw call
uses the vertex count of the last model (6), not of model 0 (3). -/
theorem C3_counterexample :
    parseOBJvertexCount objA = 3 ∧
    parseOBJvertexCount objB = 6 ∧
    drawnVertexCount [objA, objB] ≠ parseOBJvertexCount objA := by
  refine ⟨by decide, by decide, by decide⟩

theorem foldl_last_eq {α : Type} (f : α → Nat) :
    ∀ (l : List α) (h : l ≠ []) (a : Nat),
      l.foldl (fun _ t => f t) a = f (l.getLast h) := by
  intro l
  induction l with
  | nil => intro h; exact absurd rfl h
  | cons t rest ih =>
    intro h a
    cases rest with
    | nil => rfl
    | cons u us =>
      rw [List.foldl_cons, ih (by simp) (f t)]
      exact congrArg f (List.getLast_cons (by simp)).symm

/-- C3 (amended): with no models the draw call uses 3 vertices; with at
least one model it uses the face-expanded vertex count of the *last*
model in the manifest when that count is positive, and falls back to 3
when it is zero. -/
theorem C3_amended (objTexts : List (List Char)) (h : objTexts ≠ []) :
    drawnVertexCount [] = 3 ∧
    drawnVertexCount objTexts =
      (if 0 < parseOBJvertexCount (objTexts.getLast h) then
        parseOBJvertexCount (objTexts.getLast h)
      else 3) := by
  refine ⟨rfl, ?_⟩
  rw [drawnVertexCount, loadModelsVertexCount, foldl_last_eq parseOBJvertexCount objTexts h]
  rfl

/-- Witness for C3 (amended), at the two-model manifest: the last model
has 6 expanded vertices, so 6 are drawn. -/
theorem C3_amended_witness :
    ([objA, objB] : List (List Char)) ≠ [] ∧ drawnVertexCount [objA, objB] = 6 := by
  refine ⟨by decide, ?_⟩
  rw [(C3_amended [objA, objB] (by decide)).2]
  decide

/-!
Audio read-back scheduling.  The main engine's `update` tail always calls
`stagingBuffer.mapAsync` after submit when the game has sounds (a call
made while a mapping is pending is rejected by WebGPU; the promise
failure is caught and logged, but the call is issued).  The legacy
`wgsl-game.js` `frame` guards the call with an `audioReadPending` flag
and skips the read-back while a mapping is in flight.
-/

/-- Audio read-back bookkeeping: whether a staging-buffer mapping is in
flight, and how many `mapAsync` calls have been initiated. -/
structure AudioReadState where
  pending : Bool
  attempts : Nat
deriving DecidableEq, Repr

/-- The main engine's per-frame read-back step (`update`): with at least
one sound it initiates `mapAsync` unconditionally. -/
def updateReadback (audioCount : Nat) (s : AudioReadState) : AudioReadState :=
  if audioCount > 0 then { pending := true, attempts := s.attempts + 1 } else s

/-- The legacy runtime's per-frame read-back step (`frame` in
wgsl-game.js): guarded by `audioReadPending`. -/
def frameReadback (s : AudioReadState) : AudioReadState :=
  if s.pending then s else { pending := true, attempts := s.attempts + 1 }

/-- The mapAsync completion continuation: the mapping is no longer in
flight. -/
def readbackComplete (s : AudioReadState) : AudioReadState :=
  { s with pending := false }

/-- C9 (counterexample): in the main engine, a frame submitted while the
previous mapping is still pending does **not** skip the read-back: with
one sound it issues another `mapAsync` call (the attempt count grows; the
call is rejected by WebGPU and the rejection is merely logged). -/
theorem C9_counterexample :
    (updateReadback 1 { pending := true, attempts := 1 }).attempts = 2 ∧
    (updateReadback 1 { pending := true, attempts := 1 }).attempts ≠ 1 := by decide

/-- C9 (amended): only the legacy wgsl-game.js runtime maintains the
"skip while pending" discipline: its frame step leaves the state
untouched while a mapping is pending and initiates exactly one mapping
otherwise.  The main engine initiates a `mapAsync` call on every frame
that has sounds, pending or not, and never initiates one when there are
no sounds. -/
theorem C9_amended :
    (∀ s : AudioReadState, s.pending = true → frameReadback s = s) ∧
    (∀ s : AudioReadState, s.pending = false →
      frameReadback s = { pending := true, attempts := s.attempts + 1 }) ∧
    (∀ (n : Nat) (s : AudioReadState), 0 < n →
      updateReadback n s = { pending := true, attempts := s.attempts + 1 }) ∧
    (∀ s : AudioReadState, updateReadback 0 s = s) := by
  refine ⟨?_, ?_, ?_, fun s => rfl⟩
  · intro s hp
    rw [frameReadback, if_pos hp]
  · intro s hp
    rw [frameReadback, if_neg (by rw [hp]; exact Bool.false_ne_true)]
  · intro n s hn
    rw [updateReadback, if_pos hn]

/-- Witness for C9 (amended), at a concrete pending state with one
sound. -/
theorem C9_amended_witness :
    frameReadback { pending := true, attempts := 5 } = { pending := true, attempts := 5 } ∧
    updateReadback 1 { pending := true, attempts := 5 } =
      { pending := true, attempts := 6 } :=
  ⟨C9_amended.1 { pending := true, attempts := 5 } rfl,
   C9_amended.2.2.1 1 { pending := true, attempts := 5 } (by decide)⟩

/-!
Key tables.  `KEY_CODE_INDEX` is the host's key-event mapping from
browser `e.code` strings to indices of `keys[194]`; the preprocessor
emits a `KEY_*` constant block into the generated WGSL header.  Each
emitted constant is paired here with the `e.code` string it stands for.
-/

/-- The host's `KEY_CODE_INDEX` map (winit KeyCode enum order). -/
def KEY_CODE_INDEX : List (String × Nat) := [
  ("Backquote", 0),
  ("Backslash", 1),
  ("BracketLeft", 2),
  ("BracketRight", 3),
  ("Comma", 4),
  ("Digit0", 5),
  ("Digit1", 6),
  ("Digit2", 7),
  ("Digit3", 8),
  ("Digit4", 9),
  ("Digit5", 10),
  ("Digit6", 11),
  ("Digit7", 12),
  ("Digit8", 13),
  ("Digit9", 14),
  ("Equal", 15),
  ("IntlBackslash", 16),
  ("IntlRo", 17),
  ("IntlYen", 18),
  ("KeyA", 19),
  ("KeyB", 20),
  ("KeyC", 21),
  ("KeyD", 22),
  ("KeyE", 23),
  ("KeyF", 24),
  ("KeyG", 25),
  ("KeyH", 26),
  ("KeyI", 27),
  ("KeyJ", 28),
  ("KeyK", 29),
  ("KeyL", 30),
  ("KeyM", 31),
  ("KeyN", 32),
  ("KeyO", 33),
  ("KeyP", 34),
  ("KeyQ", 35),
  ("KeyR", 36),
  ("KeyS", 37),
  ("KeyT", 38),
  ("KeyU", 39),
  ("KeyV", 40),
  ("KeyW", 41),
  ("KeyX", 42),
  ("KeyY", 43),
  ("KeyZ", 44),
  ("Minus", 45),
  ("Period", 46),
  ("Quote", 47),
  ("Semicolon", 48),
  ("Slash", 49),
  ("AltLeft", 50),
  ("AltRight", 51),
  ("Backspace", 52),
  ("CapsLock", 53),
  ("ContextMenu", 54),
  ("ControlLeft", 55),
  ("ControlRight", 56),
  ("Enter", 57),
  ("SuperLeft", 58),
  ("SuperRight", 59),
  ("ShiftLeft", 60),
  ("ShiftRight", 61),
  ("Space", 62),
  ("Tab", 63),
  ("Convert", 64),
  ("KanaMode", 65),
  ("Lang1", 66),
  ("Lang2", 67),
  ("Lang3", 68),
  ("Lang4", 69),
  ("Lang5", 70),
  ("NonConvert", 71),
  ("Delete", 72),
  ("End", 73),
  ("Help", 74),
  ("Home", 75),
  ("Insert", 76),
  ("PageDown", 77),
  ("PageUp", 78),
  ("ArrowDown", 79),
  ("ArrowLeft", 80),
  ("ArrowRight", 81),
  ("ArrowUp", 82),
  ("NumLock", 83),
  ("Numpad0", 84),
  ("Numpad1", 85),
  ("Numpad2", 86),
  ("Numpad3", 87),
  ("Numpad4", 88),
  ("Numpad5", 89),
  ("Numpad6", 90),
  ("Numpad7", 91),
  ("Numpad8", 92),
  ("Numpad9", 93),
  ("NumpadAdd", 94),
  ("NumpadBackspace", 95),
  ("NumpadClear", 96),
  ("NumpadClearEntry", 97),
  ("NumpadComma", 98),
  ("NumpadDecimal", 99),
  ("NumpadDivide", 100),
  ("NumpadEnter", 101),
  ("NumpadEqual", 102),
  ("NumpadHash", 103),
  ("NumpadMemoryAdd", 104),
  ("NumpadMemoryClear", 105),
  ("NumpadMemoryRecall", 106),
  ("NumpadMemoryStore", 107),
  ("NumpadMemorySubtract", 108),
  ("NumpadMultiply", 109),
  ("NumpadParenLeft", 110),
  ("NumpadParenRight", 111),
  ("NumpadStar", 112),
  ("NumpadSubtract", 113),
  ("Escape", 114),
  ("Fn", 115),
  ("FnLock", 116),
  ("PrintScreen", 117),
  ("ScrollLock", 118),
  ("Pause", 119),
  ("BrowserBack", 120),
  ("BrowserFavorites", 121),
  ("BrowserForward", 122),
  ("BrowserHome", 123),
  ("BrowserRefresh", 124),
  ("BrowserSearch", 125),
  ("BrowserStop", 126),
  ("Eject", 127),
  ("LaunchApp1", 128),
  ("LaunchApp2", 129),
  ("LaunchMail", 130),
  ("MediaPlayPause", 131),
  ("MediaSelect", 132),
  ("MediaStop", 133),
  ("MediaTrackNext", 134),
  ("MediaTrackPrevious", 135),
  ("Power", 136),
  ("Sleep", 137),
  ("AudioVolumeDown", 138),
  ("AudioVolumeMute", 139),
  ("AudioVolumeUp", 140),
  ("WakeUp", 141),
  ("Meta", 142),
  ("Hyper", 143),
  ("Turbo", 144),
  ("Abort", 145),
  ("Resume", 146),
  ("Suspend", 147),
  ("Again", 148),
  ("Copy", 149),
  ("Cut", 150),
  ("Find", 151),
  ("Open", 152),
  ("Paste", 153),
  ("Props", 154),
  ("Select", 155),
  ("Undo", 156),
  ("Hiragana", 157),
  ("Katakana", 158),
  ("F1", 159),
  ("F2", 160),
  ("F3", 161),
  ("F4", 162),
  ("F5", 163),
  ("F6", 164),
  ("F7", 165),
  ("F8", 166),
  ("F9", 167),
  ("F10", 168),
  ("F11", 169),
  ("F12", 170),
  ("F13", 171),
  ("F14", 172),
  ("F15", 173),
  ("F16", 174),
  ("F17", 175),
  ("F18", 176),
  ("F19", 177),
  ("F20", 178),
  ("F21", 179),
  ("F22", 180),
  ("F23", 181),
  ("F24", 182),
  ("F25", 183),
  ("F26", 184),
  ("F27", 185),
  ("F28", 186),
  ("F29", 187),
  ("F30", 188),
  ("F31", 189),
  ("F32", 190),
  ("F33", 191),
  ("F34", 192),
  ("F35", 193)]
/-- The `KEY_*` constants the preprocessor writes into the generated
header, as (constant name, corresponding `e.code` string, value). -/
def emittedKeyConstants : List (String × String × Nat) := [
  ("KEY_BACKQUOTE", "Backquote", 0),
  ("KEY_BACKSLASH", "Backslash", 1),
  ("KEY_BRACKET_LEFT", "BracketLeft", 2),
  ("KEY_BRACKET_RIGHT", "BracketRight", 3),
  ("KEY_COMMA", "Comma", 4),
  ("KEY_0", "Digit0", 5),
  ("KEY_1", "Digit1", 6),
  ("KEY_2", "Digit2", 7),
  ("KEY_3", "Digit3", 8),
  ("KEY_4", "Digit4", 9),
  ("KEY_5", "Digit5", 10),
  ("KEY_6", "Digit6", 11),
  ("KEY_7", "Digit7", 12),
  ("KEY_8", "Digit8", 13),
  ("KEY_9", "Digit9", 14),
  ("KEY_EQUAL", "Equal", 15),
  ("KEY_INTL_BACKSLASH", "IntlBackslash", 16),
  ("KEY_INTL_RO", "IntlRo", 17),
  ("KEY_INTL_YEN", "IntlYen", 18),
  ("KEY_A", "KeyA", 19),
  ("KEY_B", "KeyB", 20),
  ("KEY_C", "KeyC", 21),
  ("KEY_D", "KeyD", 22),
  ("KEY_E", "KeyE", 23),
  ("KEY_F", "KeyF", 24),
  ("KEY_G", "KeyG", 25),
  ("KEY_H", "KeyH", 26),
  ("KEY_I", "KeyI", 27),
  ("KEY_J", "KeyJ", 28),
  ("KEY_K", "KeyK", 29),
  ("KEY_L", "KeyL", 30),
  ("KEY_M", "KeyM", 31),
  ("KEY_N", "KeyN", 32),
  ("KEY_O", "KeyO", 33),
  ("KEY_P", "KeyP", 34),
  ("KEY_Q", "KeyQ", 35),
  ("KEY_R", "KeyR", 36),
  ("KEY_S", "KeyS", 37),
  ("KEY_T", "KeyT", 38),
  ("KEY_U", "KeyU", 39),
  ("KEY_V", "KeyV", 40),
  ("KEY_W", "KeyW", 41),
  ("KEY_X", "KeyX", 42),
  ("KEY_Y", "KeyY", 43),
  ("KEY_Z", "KeyZ", 44),
  ("KEY_MINUS", "Minus", 45),
  ("KEY_PERIOD", "Period", 46),
  ("KEY_QUOTE", "Quote", 47),
  ("KEY_SEMICOLON", "Semicolon", 48),
  ("KEY_SLASH", "Slash", 49),
  ("KEY_ALT_LEFT", "AltLeft", 50),
  ("KEY_ALT_RIGHT", "AltRight", 51),
  ("KEY_BACKSPACE", "Backspace", 52),
  ("KEY_CAPS_LOCK", "CapsLock", 53),
  ("KEY_CONTEXT_MENU", "ContextMenu", 54),
  ("KEY_CTRL_LEFT", "ControlLeft", 55),
  ("KEY_CTRL_RIGHT", "ControlRight", 56),
  ("KEY_ENTER", "Enter", 57),
  ("KEY_SUPER_LEFT", "SuperLeft", 58),
  ("KEY_SUPER_RIGHT", "SuperRight", 59),
  ("KEY_SHIFT_LEFT", "ShiftLeft", 60),
  ("KEY_SHIFT_RIGHT", "ShiftRight", 61),
  ("KEY_SPACE", "Space", 62),
  ("KEY_TAB", "Tab", 63),
  ("KEY_DELETE", "Delete", 72),
  ("KEY_END", "End", 73),
  ("KEY_HOME", "Home", 75),
  ("KEY_INSERT", "Insert", 76),
  ("KEY_PAGE_DOWN", "PageDown", 77),
  ("KEY_PAGE_UP", "PageUp", 78),
  ("KEY_DOWN", "ArrowDown", 79),
  ("KEY_LEFT", "ArrowLeft", 80),
  ("KEY_RIGHT", "ArrowRight", 81),
  ("KEY_UP", "ArrowUp", 82),
  ("KEY_ESCAPE", "Escape", 114),
  ("KEY_F1", "F1", 159),
  ("KEY_F2", "F2", 160),
  ("KEY_F3", "F3", 161),
  ("KEY_F4", "F4", 162),
  ("KEY_F5", "F5", 163),
  ("KEY_F6", "F6", 164),
  ("KEY_F7", "F7", 165),
  ("KEY_F8", "F8", 166),
  ("KEY_F9", "F9", 167),
  ("KEY_F10", "F10", 168),
  ("KEY_F11", "F11", 169),
  ("KEY_F12", "F12", 170)]

/-- Value of an emitted `KEY_*` constant, by name. -/
def emittedKeyValue (constName : String) : Option Nat :=
  (emittedKeyConstants.find? (fun e => e.1 = constName)).map (fun e => e.2.2)

/-- Index the host's key-event handler writes for a browser code. -/
def hostKeyIndex (code : String) : Option Nat :=
  KEY_CODE_INDEX.lookup code

/-- C8 (confirmed): every emitted `KEY_*` constant has the value the
host's key-event mapping assigns to the corresponding browser code;
`KEY_A` is 19, the letters A-Z occupy consecutive indices 19-44 on both
sides, and F1-F12 occupy 159-170. -/
theorem C8_keys_agree :
    (emittedKeyConstants.all (fun e =>
      decide (hostKeyIndex e.2.1 = some e.2.2))) = true ∧
    emittedKeyValue "KEY_A" = some 19 ∧
    ((List.range 26).all (fun j =>
      decide (emittedKeyValue ("KEY_" ++ String.mk [Char.ofNat (65 + j)]) =
        some (19 + j)) &&
      decide (hostKeyIndex ("Key" ++ String.mk [Char.ofNat (65 + j)]) =
        some (19 + j)))) = true ∧
    emittedKeyValue "KEY_F1" = some 159 ∧
    emittedKeyValue "KEY_F2" = some 160 ∧
    emittedKeyValue "KEY_F3" = some 161 ∧
    emittedKeyValue "KEY_F4" = some 162 ∧
    emittedKeyValue "KEY_F5" = some 163 ∧
    emittedKeyValue "KEY_F6" = some 164 ∧
    emittedKeyValue "KEY_F7" = some 165 ∧
    emittedKeyValue "KEY_F8" = some 166 ∧
    emittedKeyValue "KEY_F9" = some 167 ∧
    emittedKeyValue "KEY_F10" = some 168 ∧
    emittedKeyValue "KEY_F11" = some 169 ∧
    emittedKeyValue "KEY_F12" = some 170 := by
  refine ⟨by decide, by decide, by decide, ?_⟩
  repeat' apply And.intro
  all_goals decide

/-!
Camera list extraction (`preprocessShader`): every `@camera(n)` match
whose device index is not yet recorded is appended, then the list is
sorted numerically (`metadata.cameras.sort((a, b) => a - b)`).  Camera
texture bindings in group 0 start right after the static and video
textures, one per camera list entry in order.
-/

/-- The first-occurrence collection loop over the `@camera` matches. -/
def collectCameras (occs : List Nat) : List Nat :=
  occs.foldl (fun acc idx => if idx ∈ acc then acc else acc ++ [idx]) []

/-- The manifest's camera list: collected distinct indices, sorted
ascending. -/
def extractCameras (occs : List Nat) : List Nat :=
  (collectCameras occs).mergeSort

/-- Group-0 binding numbers assigned to the camera textures:
`textures.length + videos.length + 1 + i` for the i-th camera. -/
def cameraBindings (texCount vidCount : Nat) (cams : List Nat) : List Nat :=
  (List.range cams.length).map (fun i => texCount + vidCount + 1 + i)

theorem mem_collectCamerasAux (occs : List Nat) :
    ∀ (acc : List Nat) (x : Nat),
      x ∈ occs.foldl (fun acc idx => if idx ∈ acc then acc else acc ++ [idx]) acc ↔
        x ∈ acc ∨ x ∈ occs := by
  induction occs with
  | nil => intro acc x; simp
  | cons i rest ih =>
    intro acc x
    rw [List.foldl_cons, ih]
    by_cases hmem : i ∈ acc
    · rw [if_pos hmem]
      constructor
      · rintro (h | h)
        · exact Or.inl h
        · exact Or.inr (List.mem_cons_of_mem i h)
      · rintro (h | h)
        · exact Or.inl h
        · rcases List.mem_cons.1 h with rfl | h
          · exact Or.inl hmem
          · exact Or.inr h
    · rw [if_neg hmem]
      simp only [List.mem_append, List.mem_singleton, List.mem_cons]
      tauto

theorem mem_collectCameras (occs : List Nat) (x : Nat) :
    x ∈ collectCameras occs ↔ x ∈ occs := by
  rw [collectCameras, mem_collectCamerasAux]
  simp

theorem nodup_collectCamerasAux (occs : List Nat) :
    ∀ acc : List Nat, acc.Nodup →
      (occs.foldl (fun acc idx => if idx ∈ acc then acc else acc ++ [idx]) acc).Nodup := by
  induction occs with
  | nil => intro acc h; simpa using h
  | cons i rest ih =>
    intro acc h
    rw [List.foldl_cons]
    by_cases hmem : i ∈ acc
    · rw [if_pos hmem]; exact ih acc h
    · rw [if_neg hmem]
      refine ih _ ?_
      simp [List.nodup_append, h, hmem]

theorem nodup_collectCameras (occs : List Nat) : (collectCameras occs).Nodup :=
  nodup_collectCamerasAux occs [] List.nodup_nil

theorem extractCameras_sorted (occs : List Nat) :
    List.Sorted (· ≤ ·) (extractCameras occs) :=
  List.sorted_mergeSort' _

theorem extractCameras_perm_collect (occs : List Nat) :
    List.Perm (extractCameras occs) (collectCameras occs) :=
  List.mergeSort_perm _ _

theorem extractCameras_nodup (occs : List Nat) : (extractCameras occs).Nodup :=
  (extractCameras_perm_collect occs).nodup_iff.2 (nodup_collectCameras occs)

theorem mem_extractCameras (occs : List Nat) (x : Nat) :
    x ∈ extractCameras occs ↔ x ∈ occs := by
  rw [(extractCameras_perm_collect occs).mem_iff, mem_collectCameras]

/-- C10 (confirmed): the manifest's camera list is the numerically sorted
list of the distinct `@camera` device indices, and any two sources whose
`@camera` index sets are equal — whatever the order and multiplicity of
the directives — get the same camera list and the same camera texture
binding assignment (for the same texture and video counts). -/
theorem C10_cameras_deterministic (l1 l2 : List Nat)
    (h : ∀ x, x ∈ l1 ↔ x ∈ l2) (texCount vidCount : Nat) :
    List.Sorted (· ≤ ·) (extractCameras l1) ∧
    (extractCameras l1).Nodup ∧
    (∀ x, x ∈ extractCameras l1 ↔ x ∈ l1) ∧
    extractCameras l1 = extractCameras l2 ∧
    cameraBindings texCount vidCount (extractCameras l1) =
      cameraBindings texCount vidCount (extractCameras l2) := by
  have hmem : ∀ x, x ∈ extractCameras l1 ↔ x ∈ extractCameras l2 := by
    intro x
    rw [mem_extractCameras, mem_extractCameras]
    exact h x
  have heq : extractCameras l1 = extractCameras l2 :=
    List.eq_of_perm_of_sorted
      ((List.perm_ext_iff_of_nodup (extractCameras_nodup l1) (extractCameras_nodup l2)).2 hmem)
      (extractCameras_sorted l1) (extractCameras_sorted l2)
  exact ⟨extractCameras_sorted l1, extractCameras_nodup l1,
    mem_extractCameras l1, heq, by rw [heq]⟩

/-- Witness for C10, at two camera directive sequences with the same
index set `{0, 2}` in different order and multiplicity. -/
theorem C10_cameras_deterministic_witness :
    extractCameras [2, 0, 2] = extractCameras [0, 2, 0, 0] ∧
    cameraBindings 3 1 (extractCameras [2, 0, 2]) =
      cameraBindings 3 1 (extractCameras [0, 2, 0, 0]) := by
  have h := C10_cameras_deterministic [2, 0, 2] [0, 2, 0, 0]
    (by intro x; simp only [List.mem_cons, List.not_mem_nil, or_false]; tauto) 3 1
  exact ⟨h.2.2.2.1, h.2.2.2.2⟩

/-!
The `@import` pass.  `preprocessShader` walks the import directives of
the current source in order, sharing one `importedFiles` set across the
whole top-level run; a path already in the set is replaced by an
"Already imported" comment, a new path is added to the set and its file
is recursively processed and inlined.  Source text is modelled as a
segment list; the recursion is embedded with an explicit depth fuel, and
the termination theorem shows the fuel `|resolver files|` never runs out.
-/

/-- A piece of shader source as the import pass sees it: literal text or
an `@import("path")` directive. -/
inductive Seg where
  | text (s : String) : Seg
  | imp (path : String) : Seg
deriving DecidableEq, Repr

/-- Output of the import pass: literal text, a file inlined at an import
site (the runtime splices `// Imported from path` plus the recursively
processed body), or an elided repeat import (the runtime puts an
`// Already imported: path` comment there). -/
inductive OutSeg where
  | text (s : String) : OutSeg
  | inlined (path : String) (body : List OutSeg) : OutSeg
  | elided (path : String) : OutSeg

/-- The file resolver (directory or archive): an association of file
names to their segmented contents. -/
def Resolver : Type := List (String × List Seg)

/-- Look a file up in the resolver. -/
def resolve (r : Resolver) (p : String) : Option (List Seg) :=
  (r.find? (fun e => e.1 = p)).map (fun e => e.2)

/-- Failures of the import pass: a missing file (the runtime's fetch
throws and the load aborts), or exhaustion of the recursion-depth fuel
(an artifact of the embedding; the theorems show it cannot happen when
the fuel is the number of resolver files). -/
inductive ImportErr where
  | notFound (path : String) : ImportErr
  | depthExhausted : ImportErr
deriving DecidableEq, Repr

/-- The `@import` pass of `preprocessShader`: walk the import directives
of the current source in order; an already-imported path is replaced by a
comment, a new path is added to the `importedFiles` set *before* its
contents are recursively processed (with the same shared set) and then
inlined.  `fuel` bounds the inlining depth; each descent consumes one
unit and adds one previously unseen resolver file to the set. -/
def processImports (r : Resolver) (fuel : Nat) (segs : List Seg)
    (imported : List String) : Except ImportErr (List OutSeg × List String) :=
  match segs with
  | [] => .ok ([], imported)
  | .text s :: rest =>
    match processImports r fuel rest imported with
    | .ok (out, im) => .ok (.text s :: out, im)
    | .error e => .error e
  | .imp p :: rest =>
    if p ∈ imported then
      match processImports r fuel rest imported with
      | .ok (out, im) => .ok (.elided p :: out, im)
      | .error e => .error e
    else
      match resolve r p with
      | none => .error (.notFound p)
      | some body =>
        match fuel with
        | 0 => .error .depthExhausted
        | fuel' + 1 =>
          match processImports r fuel' body (p :: imported) with
          | .error e => .error e
          | .ok (bodyOut, im1) =>
            match processImports r (fuel' + 1) rest im1 with
            | .error e => .error e
            | .ok (restOut, im2) => .ok (.inlined p bodyOut :: restOut, im2)
termination_by (fuel, segs)

/-- How many times the file `p` is textually inlined in the output,
counting through nested inlined bodies. -/
def inlinedCount (p : String) : List OutSeg → Nat
  | [] => 0
  | .text _ :: rest => inlinedCount p rest
  | .inlined q body :: rest =>
    (if q = p then 1 else 0) + inlinedCount p body + inlinedCount p rest
  | .elided _ :: rest => inlinedCount p rest

/-- The distinct file names the resolver can serve. -/
def importKeys (r : Resolver) : List String := (r.map Prod.fst).dedup

/-- How many resolver files have not been imported yet: an upper bound
on the further inlining depth. -/
def remainingImports (r : Resolver) (imported : List String) : Nat :=
  ((importKeys r).filter (fun p => p ∉ imported)).length

/-- Invariant of the import pass: the imported set only grows, every
path is inlined at most once, a path already in the set is never inlined
again, and an inlined path ends up in the set. -/
theorem processImports_spec (r : Resolver) (fuel : Nat) (segs : List Seg)
    (imported : List String) :
    ∀ out im, processImports r fuel segs imported = .ok (out, im) →
      (∀ q ∈ imported, q ∈ im) ∧
      (∀ p, (p ∈ imported → inlinedCount p out = 0) ∧
            inlinedCount p out ≤ 1 ∧
            (1 ≤ inlinedCount p out → p ∈ im)) := by
  induction fuel, segs, imported using processImports.induct r with
  | case1 fuel imported =>
    intro out im h
    rw [processImports] at h
    simp only [Except.ok.injEq, Prod.mk.injEq] at h
    obtain ⟨rfl, rfl⟩ := h
    refine ⟨fun q hq => hq, fun p => ?_⟩
    exact ⟨fun _ => by simp [inlinedCount], by simp [inlinedCount],
      fun hc => absurd hc (by simp [inlinedCount])⟩
  | case2 fuel imported s rest out0 im0 hrest ih =>
    intro out im h
    rw [processImports, hrest] at h
    simp only [Except.ok.injEq, Prod.mk.injEq] at h
    obtain ⟨rfl, rfl⟩ := h
    obtain ⟨hsub, hcnt⟩ := ih out0 im0 hrest
    refine ⟨hsub, fun p => ?_⟩
    have hc : inlinedCount p (.text s :: out0) = inlinedCount p out0 := by
      simp [inlinedCount]
    rw [hc]
    exact hcnt p
  | case3 fuel imported s rest e herr ih =>
    intro out im h
    rw [processImports, herr] at h
    simp at h
  | case4 fuel imported p rest hmem out0 im0 hrest ih =>
    intro out im h
    rw [processImports, if_pos hmem, hrest] at h
    simp only [Except.ok.injEq, Prod.mk.injEq] at h
    obtain ⟨rfl, rfl⟩ := h
    obtain ⟨hsub, hcnt⟩ := ih out0 im0 hrest
    refine ⟨hsub, fun q => ?_⟩
    have hc : inlinedCount q (.elided p :: out0) = inlinedCount q out0 := by
      simp [inlinedCount]
    rw [hc]
    exact hcnt q
  | case5 fuel imported p rest hmem e herr ih =>
    intro out im h
    rw [processImports, if_pos hmem, herr] at h
    simp at h
  | case6 fuel imported p rest hnmem hres =>
    intro out im h
    rw [processImports, if_neg hnmem, hres] at h
    simp at h
  | case7 imported p rest hnmem body hres =>
    intro out im h
    rw [processImports, if_neg hnmem, hres] at h
    simp at h
  | case8 imported p rest hnmem body hres fuel' e hbody ih =>
    intro out im h
    rw [processImports, if_neg hnmem, hres] at h
    simp only [hbody] at h
    simp at h
  | case9 imported p rest hnmem body hres fuel' bodyOut im1 hbody e herr ih2 ih1 =>
    intro out im h
    rw [processImports, if_neg hnmem, hres] at h
    simp only [hbody, herr] at h
    simp at h
  | case10 imported p rest hnmem body hres fuel' bodyOut im1 hbody restOut im2 hrest ih2 ih1 =>
    intro out im h
    rw [processImports, if_neg hnmem, hres] at h
    simp only [hbody, hrest, Except.ok.injEq, Prod.mk.injEq] at h
    obtain ⟨rfl, rfl⟩ := h
    obtain ⟨hsub1, hcnt1⟩ := ih2 bodyOut im1 hbody
    obtain ⟨hsub2, hcnt2⟩ := ih1 restOut im2 hrest
    constructor
    · intro q hq
      exact hsub2 q (hsub1 q (List.mem_cons_of_mem _ hq))
    · intro q
      have hcount : inlinedCount q (OutSeg.inlined p bodyOut :: restOut) =
          (if p = q then 1 else 0) + inlinedCount q bodyOut + inlinedCount q restOut := by
        simp [inlinedCount]
      rw [hcount]
      obtain ⟨hb0, hb1, hb2⟩ := hcnt1 q
      obtain ⟨hr0, hr1, hr2⟩ := hcnt2 q
      by_cases hqp : q = p
      · subst hqp
        have hbz : inlinedCount q bodyOut = 0 := hb0 (List.mem_cons_self _ _)
        have hqim1 : q ∈ im1 := hsub1 q (List.mem_cons_self _ _)
        have hrz : inlinedCount q restOut = 0 := hr0 hqim1
        rw [if_pos rfl, hbz, hrz]
        exact ⟨fun hqmem => absurd hqmem hnmem, by omega, fun _ => hsub2 q hqim1⟩
      · rw [if_neg (fun hh => hqp hh.symm)]
        refine ⟨?_, ?_, ?_⟩
        · intro hqmem
          have hqc : q ∈ p :: imported := List.mem_cons_of_mem _ hqmem
          rw [hb0 hqc, hr0 (hsub1 q hqc)]
        · by_cases hbpos : 1 ≤ inlinedCount q bodyOut
          · rw [hr0 (hb2 hbpos)]
            omega
          · omega
        · intro hsum
          by_cases hbpos : 1 ≤ inlinedCount q bodyOut
          · exact hsub2 q (hb2 hbpos)
          · exact hr2 (by omega)

/-- A pointwise-weaker filter keeps no more elements. -/
theorem length_filter_mono {α : Type} (l : List α) (f g : α → Bool)
    (h : ∀ a ∈ l, f a = true → g a = true) :
    (l.filter f).length ≤ (l.filter g).length := by
  rw [← List.countP_eq_length_filter, ← List.countP_eq_length_filter]
  exact List.countP_mono_left h

/-- A larger imported set leaves no more remaining imports. -/
theorem remainingImports_anti (r : Resolver) (im1 im2 : List String)
    (h : ∀ q ∈ im1, q ∈ im2) :
    remainingImports r im2 ≤ remainingImports r im1 := by
  refine length_filter_mono _ _ _ ?_
  intro a _ ha
  simp only [decide_eq_true_eq] at ha ⊢
  exact fun hmem => ha (h a hmem)

/-- A successfully resolved path is one of the resolver's files. -/
theorem resolve_mem_keys {r : Resolver} {p : String} {body : List Seg}
    (h : resolve r p = some body) : p ∈ importKeys r := by
  rw [resolve] at h
  rcases hf : r.find? (fun e => e.1 = p) with _ | e
  · rw [hf] at h; simp at h
  · have hmem := List.mem_of_find?_eq_some hf
    have hp := List.find?_some hf
    simp only [decide_eq_true_eq] at hp
    rw [importKeys, List.mem_dedup]
    exact List.mem_map.2 ⟨e, hmem, hp⟩

/-- Importing a resolvable, not-yet-imported file strictly decreases the
remaining-import count. -/
theorem remainingImports_strict (r : Resolver) (imported : List String) (p : String)
    (hk : p ∈ importKeys r) (hni : p ∉ imported) :
    remainingImports r (p :: imported) < remainingImports r imported := by
  have hperm : List.Perm (importKeys r) (p :: (importKeys r).erase p) :=
    List.perm_cons_erase hk
  have hf := fun (f : String → Bool) => (hperm.filter f).length_eq
  rw [remainingImports, remainingImports, hf, hf]
  rw [List.filter_cons, List.filter_cons]
  have h1 : ¬ ((decide (p ∉ p :: imported)) = true) := by simp
  have h2 : (decide (p ∉ imported)) = true := by simpa using hni
  rw [if_neg h1, if_pos h2]
  simp only [List.length_cons]
  have hmono : (((importKeys r).erase p).filter (fun q => q ∉ p :: imported)).length ≤
      (((importKeys r).erase p).filter (fun q => q ∉ imported)).length := by
    refine length_filter_mono _ _ _ ?_
    intro a _ ha
    simp only [decide_eq_true_eq, List.mem_cons, not_or] at ha ⊢
    exact ha.2
  omega

/-- Termination: with fuel at least the number of not-yet-imported
resolver files, the import pass never exhausts its depth fuel — the
recursion of the runtime terminates on every input, cyclic or not. -/
theorem processImports_no_depth (r : Resolver) (fuel : Nat) (segs : List Seg)
    (imported : List String) :
    remainingImports r imported ≤ fuel →
    processImports r fuel segs imported ≠ Except.error ImportErr.depthExhausted := by
  induction fuel, segs, imported using processImports.induct r with
  | case1 fuel imported =>
    intro _ h
    rw [processImports] at h
    simp at h
  | case2 fuel imported s rest out0 im0 hrest ih =>
    intro _ h
    rw [processImports, hrest] at h
    simp at h
  | case3 fuel imported s rest e herr ih =>
    intro hfuel h
    rw [processImports, herr] at h
    simp only [Except.error.injEq] at h
    subst h
    exact ih hfuel herr
  | case4 fuel imported p rest hmem out0 im0 hrest ih =>
    intro _ h
    rw [processImports, if_pos hmem, hrest] at h
    simp at h
  | case5 fuel imported p rest hmem e herr ih =>
    intro hfuel h
    rw [processImports, if_pos hmem, herr] at h
    simp only [Except.error.injEq] at h
    subst h
    exact ih hfuel herr
  | case6 fuel imported p rest hnmem hres =>
    intro _ h
    rw [processImports, if_neg hnmem, hres] at h
    simp at h
  | case7 imported p rest hnmem body hres =>
    intro hfuel _
    have hk := resolve_mem_keys hres
    have hpf : p ∈ (importKeys r).filter (fun q => q ∉ imported) := by
      rw [List.mem_filter]
      exact ⟨hk, by simpa using hnmem⟩
    have hpos : 0 < remainingImports r imported := by
      rw [remainingImports]
      exact List.length_pos.2 (List.ne_nil_of_mem hpf)
    omega
  | case8 imported p rest hnmem body hres fuel' e hbody ih =>
    intro hfuel h
    rw [processImports, if_neg hnmem, hres] at h
    simp only [hbody, Except.error.injEq] at h
    subst h
    have hdec := remainingImports_strict r imported p (resolve_mem_keys hres) hnmem
    exact ih (by omega) hbody
  | case9 imported p rest hnmem body hres fuel' bodyOut im1 hbody e herr ih2 ih1 =>
    intro hfuel h
    rw [processImports, if_neg hnmem, hres] at h
    simp only [hbody, herr, Except.error.injEq] at h
    subst h
    have hdec := remainingImports_strict r imported p (resolve_mem_keys hres) hnmem
    have hsub1 := (processImports_spec r fuel' body (p :: imported) bodyOut im1 hbody).1
    have hanti := remainingImports_anti r (p :: imported) im1 hsub1
    exact ih1 (by omega) herr
  | case10 imported p rest hnmem body hres fuel' bodyOut im1 hbody restOut im2 hrest ih2 ih1 =>
    intro _ h
    rw [processImports, if_neg hnmem, hres] at h
    simp only [hbody, hrest] at h
    simp at h

/-- C7 (confirmed): during one top-level preprocessing run (fuel = the
number of resolver files), preprocessing never runs out of depth — it
terminates on every input, cyclic or not — and whenever it succeeds,
every file named by an `@import` is textually inlined at most once;
second and subsequent imports of the same path become elision comments. -/
theorem C7_import_once_and_terminates (r : Resolver) (segs : List Seg) :
    processImports r (importKeys r).length segs [] ≠
      Except.error ImportErr.depthExhausted ∧
    ∀ out im, processImports r (importKeys r).length segs [] = Except.ok (out, im) →
      ∀ p, inlinedCount p out ≤ 1 := by
  constructor
  · refine processImports_no_depth r _ segs [] ?_
    rw [remainingImports]
    have he : (importKeys r).filter (fun q => q ∉ ([] : List String)) = importKeys r := by
      simp
    rw [he]
  · intro out im h p
    exact ((processImports_spec r _ segs [] out im h).2 p).2.1

/-- A cyclic two-file resolver: `a` imports `b`, which imports
`a` and `b` again. -/
def cycleResolver : Resolver :=
  [("a", [Seg.imp "b"]), ("b", [Seg.imp "a", Seg.imp "b"])]

/-- A top-level source importing `a` twice. -/
def cycleTop : List Seg := [Seg.imp "a", Seg.imp "a"]

/-- The expected output: `a` inlined once (with `b` inlined
once inside it and the cyclic re-imports elided), and the duplicate
top-level import elided. -/
def cycleOut : List OutSeg :=
  [OutSeg.inlined "a"
    [OutSeg.inlined "b" [OutSeg.elided "a", OutSeg.elided "b"]],
   OutSeg.elided "a"]

/-- Concrete evaluation of the import pass on the cyclic resolver. -/
theorem cycle_eval :
    processImports cycleResolver (importKeys cycleResolver).length cycleTop [] =
      Except.ok (cycleOut, ["b", "a"]) := by
  simp [processImports, cycleResolver, cycleTop, cycleOut, importKeys, resolve]

/-- Witness for C7, at the cyclic resolver: the run does not exhaust its
depth, and both files are inlined exactly once. -/
theorem C7_witness :
    (processImports cycleResolver (importKeys cycleResolver).length cycleTop [] ≠
      Except.error ImportErr.depthExhausted) ∧
    inlinedCount "a" cycleOut = 1 ∧
    inlinedCount "b" cycleOut = 1 ∧
    inlinedCount "a" cycleOut ≤ 1 ∧
    inlinedCount "b" cycleOut ≤ 1 := by
  have h := C7_import_once_and_terminates cycleResolver cycleTop
  refine ⟨h.1, by simp [cycleOut, inlinedCount], by simp [cycleOut, inlinedCount],
    h.2 cycleOut ["b", "a"] cycle_eval "a",
    h.2 cycleOut ["b", "a"] cycle_eval "b"⟩


end Wgsleng
